import Mathlib

/-!
Verification of the Buildkite pipeline generator
(`.buildkite/autogenerate_pipeline.py`).

The generator is a pure transform: a JSON test description plus a set of
environment-variable override channels is turned into a list of Buildkite
step dictionaries.  We embed it shallowly: Python dictionaries become
association lists with Python-dict update semantics (`dictSet` keeps the
position of an existing key, appends a new one), JSON values become the
`JVal` inductive, Python truthiness of optional values is made explicit,
and the `assert` statements become `Except.error` with the assertion
message.  Environment variables arrive already parsed: `none` models an
unset (or empty, hence falsy) variable, `some` a parsed JSON value; the
messages of the two `assert`s in `_env_change_config` interpolate the raw
variable text in Python, which the model elides, keeping the constant part
of the message.
-/

namespace Autogen

/-- JSON-ish values carried in the dictionaries the generator manipulates
(strings, integers, booleans, and string lists such as the docker
`devices` list). -/
inductive JVal where
  | str (s : String)
  | int (n : Int)
  | bool (b : Bool)
  | strList (l : List String)
deriving DecidableEq, Repr

/-- A Python dictionary with string keys, as an ordered association list. -/
abbrev Dict := List (String × JVal)

/-- Python `d[k] = v`: overwrite the value in place (keeping the key's
insertion position) when the key exists, append the pair otherwise. -/
def dictSet : Dict → String → JVal → Dict
  | [], k, v => [(k, v)]
  | (k', v') :: rest, k, v =>
    if k' = k then (k, v) :: rest else (k', v') :: dictSet rest k v

/-- Python `d.get(k)`. -/
def dictGet (d : Dict) (k : String) : Option JVal :=
  (d.find? (fun p => p.1 == k)).map (fun p => p.2)

/-- Python `for key, val in cfg.items(): d[key] = val`. -/
def dictUpdate (d : Dict) (cfg : Dict) : Dict :=
  cfg.foldl (fun acc kv => dictSet acc kv.1 kv.2) d

/-- The dictionary obtained by inserting the pairs of `cfg` into an empty
dictionary (later occurrences of a key win). -/
def pyDict (cfg : Dict) : Dict := dictUpdate [] cfg

/-- Python truthiness of an optional string (`None` and `""` are falsy). -/
def truthyStr : Option String → Bool
  | some s => if s = "" then false else true
  | none => false

/-- Python truthiness of an optional integer (`None` and `0` are falsy). -/
def truthyInt : Option Int → Bool
  | some n => if n = 0 then false else true
  | none => false

/-- Python truthiness of an optional dictionary (`None` and `{}` falsy). -/
def truthyDict : Option Dict → Bool
  | some d => if d = [] then false else true
  | none => false

/-- CONTAINER_VERSION constant of the script. -/
def CONTAINER_VERSION : String := "v24"

/-- DOCKER_PLUGIN_VERSION constant of the script. -/
def DOCKER_PLUGIN_VERSION : String := "v5.3.0"

/-- A parsed agent-tag or docker-plugin override block from the
environment (the script requires the shape
`{"tests": [...], "cfg": {...}}` but `json.loads` may produce an object
missing either key, hence the `Option`s; an empty list or empty object is
represented by `some []`). -/
structure EnvOverride where
  tests : Option (List String) := none
  cfg : Option Dict := none
deriving DecidableEq, Repr

/-- The override environment variables, already parsed. `none` is an
unset or empty (falsy) variable. -/
structure Env where
  x86AgentTags : Option EnvOverride := none
  aarch64AgentTags : Option EnvOverride := none
  dockerPluginConfig : Option EnvOverride := none
  testsToSkip : Option (List String) := none
  timeoutsMin : Option (List (String × Int)) := none
  defaultHypervisorVar : Option String := none
deriving DecidableEq, Repr

/-- DEFAULT_AGENT_TAG_HYPERVISOR: `os.getenv` with default `'kvm'`. -/
def Env.defaultHypervisor (env : Env) : String :=
  env.defaultHypervisorVar.getD "kvm"

/-- The dictionary `BuildkiteStep.__init__` builds, as a structure:
`retryAutomatic` is the `retry: {automatic: ...}` entry, `dockerPlugin`
the inner dictionary of the single docker plugin entry (keyed in Python
by `docker#DOCKER_PLUGIN_VERSION`), `ifCond` the `if` key (absent until
`_set_conditional` adds it), and `extra` the pass-through keys appended
at the end of `build`. -/
structure StepConfig where
  label : Option String := none
  command : Option String := none
  retryAutomatic : Bool := false
  agents : Dict := [("os", JVal.str "linux")]
  dockerPlugin : Dict :=
    [("image", JVal.str ("rustvmm/dev:" ++ CONTAINER_VERSION)),
     ("always-pull", JVal.bool true)]
  ifCond : Option String := none
  timeout_in_minutes : Int := 15
  extra : Dict := []
deriving DecidableEq, Repr

/-- The default step configuration set up in `BuildkiteStep.__init__`. -/
def initStepConfig : StepConfig := {}

/-- BuildkiteStep._set_platform: when the platform is truthy, rewrite
`aarch64` to `arm` and set the agents `platform` key to `platform.metal`. -/
def setPlatform : Option String → StepConfig → StepConfig
  | some p, c =>
    if p = "" then c
    else
      let tag := (if p = "aarch64" then "arm" else p) ++ ".metal"
      { c with agents := dictSet c.agents "platform" (JVal.str tag) }
  | none, c => c

/-- BuildkiteStep._set_hypervisor: only `kvm` and `mshv` are accepted;
anything else is silently dropped. -/
def setHypervisor : Option String → StepConfig → StepConfig
  | some h, c =>
    if h = "" then c
    else if h = "kvm" ∨ h = "mshv" then
      { c with agents := dictSet c.agents "hypervisor" (JVal.str h) }
    else c
  | none, c => c

/-- BuildkiteStep._set_conditional. -/
def setConditional (cond : Option String) (c : StepConfig) : StepConfig :=
  if truthyStr cond then { c with ifCond := cond } else c

/-- BuildkiteStep._set_timeout_in_minutes. -/
def setTimeoutInMinutes : Option Int → StepConfig → StepConfig
  | some t, c => if t = 0 then c else { c with timeout_in_minutes := t }
  | none, c => c

/-- BuildkiteStep._set_agent_queue. -/
def setAgentQueue : Option String → StepConfig → StepConfig
  | some q, c =>
    if q = "" then c
    else { c with agents := dictSet c.agents "queue" (JVal.str q) }
  | none, c => c

/-- BuildkiteStep._add_docker_config: merge the TestDescription's own
docker mapping into the plugin configuration. -/
def addDockerConfig : Option Dict → StepConfig → StepConfig
  | some cfg, c =>
    if cfg = [] then c
    else { c with dockerPlugin := dictUpdate c.dockerPlugin cfg }
  | none, c => c

/-- BuildkiteStep._env_change_config: when the environment variable is
set, its block must have truthy `tests` and `cfg` sub-keys (an `assert`
rejects a missing key and, because Python truthiness, equally an empty
list or empty object); when the test name is in the list, the block's
`cfg` pairs are written into `target`, after clearing it when
`override` is true. -/
def envChangeConfig (test_name : String) (env_var : Option EnvOverride)
    (target : Dict) (override : Bool) : Except String Dict :=
  match env_var with
  | none => Except.ok target
  | some block =>
    let tests := block.tests.getD []
    if tests = [] then
      Except.error "Environment variable is missing the `tests` key."
    else
      let cfg := block.cfg.getD []
      if cfg = [] then
        Except.error "Environment variable is missing the `cfg` key."
      else if test_name ∈ tests then
        Except.ok (dictUpdate (if override then [] else target) cfg)
      else
        Except.ok target

/-- BuildkiteStep._env_override_agent_tags: pick the x86 block when the
already-resolved agents platform is `x86_64.metal`, the aarch64 block
when it is `arm.metal`, and fully replace the agent selector
(`override=True`). -/
def envOverrideAgentTags (env : Env) (test_name : String) (agents : Dict) :
    Except String Dict :=
  let env_var : Option EnvOverride :=
    match dictGet agents "platform" with
    | some (JVal.str p) =>
      if p = "x86_64.metal" then env.x86AgentTags
      else if p = "arm.metal" then env.aarch64AgentTags
      else none
    | _ => none
  envChangeConfig test_name env_var agents true

/-- BuildkiteStep._env_override_timeout: the Python method assigns
`self.timeout_in_minutes = timeouts_min[test_name]`, a fresh attribute on
the step object, not `self.step_config['timeout_in_minutes']`; the model
returns the value that assignment stores (it never reaches the step
configuration). -/
def envOverrideTimeout (env : Env) (test_name : String) : Option Int :=
  match env.timeoutsMin with
  | none => none
  | some tm =>
    match tm.find? (fun p => p.1 == test_name) with
    | some p => some p.2
    | none => none

/-- Mandatory test name check: `assert test_name` (falsy when missing or
empty). -/
def checkTestName : Option String → Except String String
  | some n => if n = "" then Except.error "Step is missing test name." else Except.ok n
  | none => Except.error "Step is missing test name."

/-- Whether the character sequence `pat` starts the sequence `s`. -/
def leadsWith : List Char → List Char → Bool
  | [], _ => true
  | _ :: _, [] => false
  | a :: as, b :: bs => a = b && leadsWith as bs

/-- Whether the character sequence `pat` occurs inside `s` (Python
`pat in s`). -/
def containsSeq : List Char → List Char → Bool
  | [], pat => leadsWith pat []
  | c :: rest, pat => leadsWith pat (c :: rest) || containsSeq rest pat

/-- Whether the command contains the literal `{target_platform}` token. -/
def hasTargetPlatformTok (s : String) : Bool :=
  containsSeq s.data "{target_platform}".data

/-- Mandatory command check and `{target_platform}` substitution:
`assert command`, then when the token occurs, `assert platform` and
replace every occurrence by the platform string. -/
def resolveCommand (command : Option String) (platform : Option String) :
    Except String String :=
  match command with
  | none => Except.error "Step is missing command."
  | some cmd =>
    if cmd = "" then Except.error "Step is missing command."
    else if hasTargetPlatformTok cmd then
      match platform with
      | some p =>
        if p = "" then
          Except.error "Command requires platform, but platform is missing."
        else Except.ok (cmd.replace "{target_platform}" p)
      | none => Except.error "Command requires platform, but platform is missing."
    else Except.ok cmd

/-- The step label: `f"{test_name}{platform_string}"` with
`platform_string = f"-{platform}"` when the platform is truthy. -/
def stepLabel (test_name : String) (platform : Option String) : String :=
  match platform with
  | some p => if p = "" then test_name else test_name ++ "-" ++ p
  | none => test_name

/-- The per-step input dictionary handed to `BuildkiteStep.build`
(after `BuildkiteConfig.build` fixed a single platform and defaulted the
hypervisor); `extra` holds the keys without explicit support. -/
structure StepInput where
  test_name : Option String := none
  command : Option String := none
  platform : Option String := none
  hypervisor : Option String := none
  docker_plugin : Option Dict := none
  conditional : Option String := none
  timeout_in_minutes : Option Int := none
  queue : Option String := none
  extra : Dict := []
deriving DecidableEq, Repr

/-- The special keys filtered out of the pass-through forwarding. -/
def specialKeys : List String :=
  ["conditional", "docker_plugin", "platform", "test_name", "queue", "hypervisor"]

/-- The keys present in `step_config` at the point the pass-through
filter runs (the six initial keys, plus `if` when a conditional was
set). -/
def stepConfigKeys (hasIf : Bool) : List String :=
  ["label", "command", "retry", "agents", "plugins", "timeout_in_minutes"] ++
    (if hasIf then ["if"] else [])

/-- The additional keys of the input forwarded verbatim: not already in
`step_config` and not special. -/
def additionalKeys (hasIf : Bool) (extra : Dict) : Dict :=
  pyDict (extra.filter
    (fun kv => !(stepConfigKeys hasIf).contains kv.1 && !specialKeys.contains kv.1))

/-- The value `_set_platform` stores under the agents `platform` key: the
platform suffixed with `.metal`, after the single rewrite
`aarch64 -> arm`; `none` when the platform is absent or empty (falsy). -/
def resolvedPlatformTag : Option String → Option String
  | some p =>
    if p = "" then none
    else some ((if p = "aarch64" then "arm" else p) ++ ".metal")
  | none => none

/-- The optional setters of `BuildkiteStep.build`, in source order:
platform, hypervisor, conditional, docker config, timeout, queue. -/
def applyOptionals (input : StepInput) (c : StepConfig) : StepConfig :=
  setAgentQueue input.queue
    (setTimeoutInMinutes input.timeout_in_minutes
      (addDockerConfig input.docker_plugin
        (setConditional input.conditional
          (setHypervisor input.hypervisor
            (setPlatform input.platform c)))))

/-- A `BuildkiteStep` object at the end of `build`: its `step_config`
dictionary (the value `build` returns) and the stray
`self.timeout_in_minutes` attribute `_env_override_timeout` may have
set. -/
structure BuildkiteStep where
  step_config : StepConfig
  timeout_attr : Option Int
deriving DecidableEq, Repr

/-- The step configuration right after the two mandatory keys are set:
the defaults with the label and the resolved command. -/
def labeledInit (name cmd : String) (platform : Option String) : StepConfig :=
  { initStepConfig with
      label := some (stepLabel name platform)
      command := some cmd }

/-- BuildkiteStep.build: mandatory checks, optional setters, environment
overrides, pass-through keys. -/
def BuildkiteStep.build (env : Env) (input : StepInput) :
    Except String BuildkiteStep := do
  let name ← checkTestName input.test_name
  let cmd ← resolveCommand input.command input.platform
  let c1 := applyOptionals input (labeledInit name cmd input.platform)
  let agents2 ← envOverrideAgentTags env name c1.agents
  let docker2 ← envChangeConfig name env.dockerPluginConfig c1.dockerPlugin false
  let tattr := envOverrideTimeout env name
  return { step_config :=
             { c1 with
                 agents := agents2
                 dockerPlugin := docker2
                 extra := additionalKeys c1.ifCond.isSome input.extra }
           timeout_attr := tattr }

/-- One entry of the input `tests` list. -/
structure TestDescription where
  test_name : Option String := none
  command : Option String := none
  platform : Option (List String) := none
  hypervisor : Option String := none
  docker_plugin : Option Dict := none
  conditional : Option String := none
  timeout_in_minutes : Option Int := none
  queue : Option String := none
  extra : Dict := []
deriving DecidableEq, Repr

/-- The platforms a test expands to: `if not platforms: platforms = [None]`
(a missing or empty platform list becomes the single platform `None`). -/
def platformsOf (t : TestDescription) : List (Option String) :=
  match t.platform with
  | none => [none]
  | some [] => [none]
  | some ps => ps.map some

/-- The step input `BuildkiteConfig.build` prepares for one
(test, platform) pair: the copied test with `platform` fixed and a falsy
hypervisor replaced by the process-wide default. -/
def toStepInput (env : Env) (t : TestDescription) (p : Option String) : StepInput :=
  { test_name := t.test_name
    command := t.command
    platform := p
    hypervisor := if truthyStr t.hypervisor then t.hypervisor
                  else some env.defaultHypervisor
    docker_plugin := t.docker_plugin
    conditional := t.conditional
    timeout_in_minutes := t.timeout_in_minutes
    queue := t.queue
    extra := t.extra }

/-- Whether TESTS_TO_SKIP names this test. -/
def isSkipped (env : Env) (t : TestDescription) : Bool :=
  match env.testsToSkip with
  | none => false
  | some skip =>
    match t.test_name with
    | some n => decide (n ∈ skip)
    | none => false

/-- The steps one test contributes: none when skipped, otherwise one per
expanded platform (`build` returns the step's `step_config`
dictionary). -/
def expandTest (env : Env) (t : TestDescription) : Except String (List StepConfig) :=
  if isSkipped env t then Except.ok []
  else
    (platformsOf t).mapM
      (fun p => (BuildkiteStep.build env (toStepInput env t p)).map
        (fun st => st.step_config))

/-- The loop body of `BuildkiteConfig.build` over the tests list. -/
def configSteps (env : Env) : List TestDescription → Except String (List StepConfig)
  | [] => Except.ok []
  | t :: rest => do
    let head ← expandTest env t
    let tail ← configSteps env rest
    return head ++ tail

/-- The input document: a JSON object whose `tests` key holds the list. -/
structure PipelineInput where
  tests : Option (List TestDescription) := none
deriving DecidableEq, Repr

/-- BuildkiteConfig.build: `assert tests` (missing or empty is fatal),
then expand every test in order. -/
def BuildkiteConfig.build (env : Env) (input : PipelineInput) :
    Except String (List StepConfig) :=
  match input.tests with
  | none => Except.error "Input is missing list of tests."
  | some [] => Except.error "Input is missing list of tests."
  | some ts => configSteps env ts

end Autogen

namespace Autogen

/-! ### Dictionary lemmas -/

theorem dictGet_nil (q : String) : dictGet [] q = none := rfl

theorem dictGet_cons (a : String) (b : JVal) (t : Dict) (q : String) :
    dictGet ((a, b) :: t) q = if q = a then some b else dictGet t q := by
  by_cases hq : q = a
  · simp [dictGet, hq]
  · simp [dictGet, hq, Ne.symm hq]

theorem dictGet_dictSet (d : Dict) (k : String) (v : JVal) (q : String) :
    dictGet (dictSet d k v) q = if q = k then some v else dictGet d q := by
  induction d with
  | nil =>
    simp only [dictSet]
    rw [dictGet_cons]
  | cons hd tl ih =>
    obtain ⟨a, b⟩ := hd
    simp only [dictSet]
    by_cases hh : a = k
    · rw [if_pos hh, dictGet_cons, dictGet_cons]
      by_cases hq : q = k
      · simp [hq]
      · simp [hq, hh ▸ hq]
    · rw [if_neg hh, dictGet_cons, dictGet_cons, ih]
      by_cases hq : q = a
      · subst hq
        simp [hh]
      · simp [hq]

/-- First-found-wins choice used to describe layered dictionaries. -/
def orD (a b : Option JVal) : Option JVal :=
  match a with
  | some v => some v
  | none => b

theorem orD_assoc (a b c : Option JVal) : orD (orD a b) c = orD a (orD b c) := by
  cases a <;> rfl

/-- Looking a key up after a Python-style bulk update: pairs written by
the update win over the original dictionary. -/
theorem dictGet_dictUpdate (cfg : Dict) :
    ∀ (d : Dict) (q : String),
      dictGet (dictUpdate d cfg) q = orD (dictGet (pyDict cfg) q) (dictGet d q) := by
  induction cfg with
  | nil => intro d q; simp [dictUpdate, pyDict, dictGet, orD]
  | cons kv rest ih =>
    intro d q
    obtain ⟨k0, v0⟩ := kv
    show dictGet (dictUpdate (dictSet d k0 v0) rest) q
        = orD (dictGet (dictUpdate (dictSet [] k0 v0) rest) q) (dictGet d q)
    rw [ih, ih, orD_assoc]
    congr 1
    have h1 : orD (dictGet (dictSet [] k0 v0) q) (dictGet d q) = dictGet (dictSet d k0 v0) q := by
      rw [dictGet_dictSet, dictGet_dictSet]
      by_cases hq : q = k0
      · simp [hq, orD]
      · simp [hq, orD, dictGet]
    exact h1.symm

theorem dictGet_append (d1 d2 : Dict) (q : String) :
    dictGet (d1 ++ d2) q = orD (dictGet d1 q) (dictGet d2 q) := by
  unfold dictGet
  rw [List.find?_append]
  cases d1.find? (fun p => p.1 == q) <;> simp [orD]

theorem dictSet_of_get_none (d : Dict) (k : String) (v : JVal)
    (h : dictGet d k = none) : dictSet d k v = d ++ [(k, v)] := by
  induction d with
  | nil => rfl
  | cons hd tl ih =>
    obtain ⟨a, b⟩ := hd
    rw [dictGet_cons] at h
    by_cases hk : k = a
    · rw [if_pos hk] at h
      exact absurd h (by simp)
    · rw [if_neg hk] at h
      simp only [dictSet]
      rw [if_neg (show ¬ (a = k) from fun hc => hk hc.symm), ih h]
      simp

theorem dictUpdate_of_disjoint (cfg : Dict) :
    ∀ (d : Dict), (∀ k ∈ cfg.map Prod.fst, dictGet d k = none) →
      (cfg.map Prod.fst).Nodup → dictUpdate d cfg = d ++ cfg := by
  induction cfg with
  | nil => intro d _ _; simp [dictUpdate]
  | cons kv rest ih =>
    intro d hdisj hnd
    obtain ⟨k0, v0⟩ := kv
    show dictUpdate (dictSet d k0 v0) rest = d ++ (k0, v0) :: rest
    rw [dictSet_of_get_none d k0 v0 (hdisj k0 (by simp))]
    have hmem : ∀ k ∈ rest.map Prod.fst, dictGet (d ++ [(k0, v0)]) k = none := by
      intro k hk
      have h1 : dictGet d k = none := hdisj k (by simp [hk])
      have h2 : ¬ (k = k0) := by
        simp only [List.map_cons, List.nodup_cons] at hnd
        intro hc
        subst hc
        exact hnd.1 hk
      rw [dictGet_append, h1, dictGet_cons, if_neg h2]
      rfl
    have hnd2 : (rest.map Prod.fst).Nodup := by
      simp only [List.map_cons, List.nodup_cons] at hnd
      exact hnd.2
    rw [ih (d ++ [(k0, v0)]) hmem hnd2]
    simp

/-- A duplicate-free association list is unchanged by Python-dict
normalization (JSON objects are duplicate-free). -/
theorem pyDict_nodup (cfg : Dict) (h : (cfg.map Prod.fst).Nodup) :
    pyDict cfg = cfg := by
  show dictUpdate [] cfg = cfg
  rw [dictUpdate_of_disjoint cfg [] (fun k _ => rfl) h]
  rfl

end Autogen

namespace Autogen

/-! ### Field effects of the optional setters -/

@[simp] theorem setPlatform_label (p : Option String) (c : StepConfig) :
    (setPlatform p c).label = c.label := by
  cases p
  · rfl
  · simp only [setPlatform]; split <;> rfl

@[simp] theorem setPlatform_command (p : Option String) (c : StepConfig) :
    (setPlatform p c).command = c.command := by
  cases p
  · rfl
  · simp only [setPlatform]; split <;> rfl

@[simp] theorem setPlatform_ifCond (p : Option String) (c : StepConfig) :
    (setPlatform p c).ifCond = c.ifCond := by
  cases p
  · rfl
  · simp only [setPlatform]; split <;> rfl

@[simp] theorem setPlatform_timeout (p : Option String) (c : StepConfig) :
    (setPlatform p c).timeout_in_minutes = c.timeout_in_minutes := by
  cases p
  · rfl
  · simp only [setPlatform]; split <;> rfl

@[simp] theorem setPlatform_dockerPlugin (p : Option String) (c : StepConfig) :
    (setPlatform p c).dockerPlugin = c.dockerPlugin := by
  cases p
  · rfl
  · simp only [setPlatform]; split <;> rfl

@[simp] theorem setPlatform_extra (p : Option String) (c : StepConfig) :
    (setPlatform p c).extra = c.extra := by
  cases p
  · rfl
  · simp only [setPlatform]; split <;> rfl

theorem setPlatform_agents_get (p : Option String) (c : StepConfig) (q : String)
    (hq : q ≠ "platform") :
    dictGet (setPlatform p c).agents q = dictGet c.agents q := by
  cases p
  · rfl
  · simp only [setPlatform]
    split
    · rfl
    · dsimp only
      rw [dictGet_dictSet, if_neg hq]

theorem setPlatform_agents_get_platform (p : Option String) (c : StepConfig) :
    dictGet (setPlatform p c).agents "platform" =
      match resolvedPlatformTag p with
      | some s => some (JVal.str s)
      | none => dictGet c.agents "platform" := by
  cases p
  · rfl
  · rename_i s
    simp only [setPlatform, resolvedPlatformTag]
    by_cases hs : s = ""
    · simp [hs]
    · simp only [hs, if_false]
      rw [dictGet_dictSet, if_pos rfl]

@[simp] theorem setHypervisor_label (h : Option String) (c : StepConfig) :
    (setHypervisor h c).label = c.label := by
  cases h
  · rfl
  · simp only [setHypervisor]; split <;> first | rfl | (split <;> rfl)

@[simp] theorem setHypervisor_command (h : Option String) (c : StepConfig) :
    (setHypervisor h c).command = c.command := by
  cases h
  · rfl
  · simp only [setHypervisor]; split <;> first | rfl | (split <;> rfl)

@[simp] theorem setHypervisor_ifCond (h : Option String) (c : StepConfig) :
    (setHypervisor h c).ifCond = c.ifCond := by
  cases h
  · rfl
  · simp only [setHypervisor]; split <;> first | rfl | (split <;> rfl)

@[simp] theorem setHypervisor_timeout (h : Option String) (c : StepConfig) :
    (setHypervisor h c).timeout_in_minutes = c.timeout_in_minutes := by
  cases h
  · rfl
  · simp only [setHypervisor]; split <;> first | rfl | (split <;> rfl)

@[simp] theorem setHypervisor_dockerPlugin (h : Option String) (c : StepConfig) :
    (setHypervisor h c).dockerPlugin = c.dockerPlugin := by
  cases h
  · rfl
  · simp only [setHypervisor]; split <;> first | rfl | (split <;> rfl)

@[simp] theorem setHypervisor_extra (h : Option String) (c : StepConfig) :
    (setHypervisor h c).extra = c.extra := by
  cases h
  · rfl
  · simp only [setHypervisor]; split <;> first | rfl | (split <;> rfl)

theorem setHypervisor_agents_get (h : Option String) (c : StepConfig) (q : String)
    (hq : q ≠ "hypervisor") :
    dictGet (setHypervisor h c).agents q = dictGet c.agents q := by
  cases h
  · rfl
  · simp only [setHypervisor]
    split
    · rfl
    · split
      · dsimp only
        rw [dictGet_dictSet, if_neg hq]
      · rfl

@[simp] theorem setConditional_agents (x : Option String) (c : StepConfig) :
    (setConditional x c).agents = c.agents := by
  unfold setConditional; split <;> rfl

@[simp] theorem setConditional_label (x : Option String) (c : StepConfig) :
    (setConditional x c).label = c.label := by
  unfold setConditional; split <;> rfl

@[simp] theorem setConditional_command (x : Option String) (c : StepConfig) :
    (setConditional x c).command = c.command := by
  unfold setConditional; split <;> rfl

@[simp] theorem setConditional_timeout (x : Option String) (c : StepConfig) :
    (setConditional x c).timeout_in_minutes = c.timeout_in_minutes := by
  unfold setConditional; split <;> rfl

@[simp] theorem setConditional_dockerPlugin (x : Option String) (c : StepConfig) :
    (setConditional x c).dockerPlugin = c.dockerPlugin := by
  unfold setConditional; split <;> rfl

@[simp] theorem setConditional_extra (x : Option String) (c : StepConfig) :
    (setConditional x c).extra = c.extra := by
  unfold setConditional; split <;> rfl

theorem setConditional_ifCond (x : Option String) (c : StepConfig) :
    (setConditional x c).ifCond = if truthyStr x then x else c.ifCond := by
  unfold setConditional; split <;> simp_all

@[simp] theorem setTimeoutInMinutes_agents (x : Option Int) (c : StepConfig) :
    (setTimeoutInMinutes x c).agents = c.agents := by
  cases x
  · rfl
  · simp only [setTimeoutInMinutes]; split <;> rfl

@[simp] theorem setTimeoutInMinutes_label (x : Option Int) (c : StepConfig) :
    (setTimeoutInMinutes x c).label = c.label := by
  cases x
  · rfl
  · simp only [setTimeoutInMinutes]; split <;> rfl

@[simp] theorem setTimeoutInMinutes_command (x : Option Int) (c : StepConfig) :
    (setTimeoutInMinutes x c).command = c.command := by
  cases x
  · rfl
  · simp only [setTimeoutInMinutes]; split <;> rfl

@[simp] theorem setTimeoutInMinutes_ifCond (x : Option Int) (c : StepConfig) :
    (setTimeoutInMinutes x c).ifCond = c.ifCond := by
  cases x
  · rfl
  · simp only [setTimeoutInMinutes]; split <;> rfl

@[simp] theorem setTimeoutInMinutes_dockerPlugin (x : Option Int) (c : StepConfig) :
    (setTimeoutInMinutes x c).dockerPlugin = c.dockerPlugin := by
  cases x
  · rfl
  · simp only [setTimeoutInMinutes]; split <;> rfl

@[simp] theorem setTimeoutInMinutes_extra (x : Option Int) (c : StepConfig) :
    (setTimeoutInMinutes x c).extra = c.extra := by
  cases x
  · rfl
  · simp only [setTimeoutInMinutes]; split <;> rfl

theorem setTimeoutInMinutes_timeout (x : Option Int) (c : StepConfig) :
    (setTimeoutInMinutes x c).timeout_in_minutes =
      match x with
      | some t => if t = 0 then c.timeout_in_minutes else t
      | none => c.timeout_in_minutes := by
  cases x
  · rfl
  · simp only [setTimeoutInMinutes]
    split <;> simp_all

@[simp] theorem setAgentQueue_label (x : Option String) (c : StepConfig) :
    (setAgentQueue x c).label = c.label := by
  cases x
  · rfl
  · simp only [setAgentQueue]; split <;> rfl

@[simp] theorem setAgentQueue_command (x : Option String) (c : StepConfig) :
    (setAgentQueue x c).command = c.command := by
  cases x
  · rfl
  · simp only [setAgentQueue]; split <;> rfl

@[simp] theorem setAgentQueue_ifCond (x : Option String) (c : StepConfig) :
    (setAgentQueue x c).ifCond = c.ifCond := by
  cases x
  · rfl
  · simp only [setAgentQueue]; split <;> rfl

@[simp] theorem setAgentQueue_timeout (x : Option String) (c : StepConfig) :
    (setAgentQueue x c).timeout_in_minutes = c.timeout_in_minutes := by
  cases x
  · rfl
  · simp only [setAgentQueue]; split <;> rfl

@[simp] theorem setAgentQueue_dockerPlugin (x : Option String) (c : StepConfig) :
    (setAgentQueue x c).dockerPlugin = c.dockerPlugin := by
  cases x
  · rfl
  · simp only [setAgentQueue]; split <;> rfl

@[simp] theorem setAgentQueue_extra (x : Option String) (c : StepConfig) :
    (setAgentQueue x c).extra = c.extra := by
  cases x
  · rfl
  · simp only [setAgentQueue]; split <;> rfl

theorem setAgentQueue_agents_get (x : Option String) (c : StepConfig) (q : String)
    (hq : q ≠ "queue") :
    dictGet (setAgentQueue x c).agents q = dictGet c.agents q := by
  cases x
  · rfl
  · simp only [setAgentQueue]
    split
    · rfl
    · dsimp only
      rw [dictGet_dictSet, if_neg hq]

theorem setAgentQueue_agents_get_queue (x : Option String) (c : StepConfig) :
    dictGet (setAgentQueue x c).agents "queue" =
      if truthyStr x then x.map JVal.str else dictGet c.agents "queue" := by
  cases x
  · rfl
  · rename_i s
    simp only [setAgentQueue, truthyStr]
    by_cases hs : s = ""
    · simp [hs]
    · simp only [hs, if_false]
      rw [dictGet_dictSet, if_pos rfl]
      simp [hs]

@[simp] theorem addDockerConfig_agents (x : Option Dict) (c : StepConfig) :
    (addDockerConfig x c).agents = c.agents := by
  cases x
  · rfl
  · simp only [addDockerConfig]; split <;> rfl

@[simp] theorem addDockerConfig_label (x : Option Dict) (c : StepConfig) :
    (addDockerConfig x c).label = c.label := by
  cases x
  · rfl
  · simp only [addDockerConfig]; split <;> rfl

@[simp] theorem addDockerConfig_command (x : Option Dict) (c : StepConfig) :
    (addDockerConfig x c).command = c.command := by
  cases x
  · rfl
  · simp only [addDockerConfig]; split <;> rfl

@[simp] theorem addDockerConfig_ifCond (x : Option Dict) (c : StepConfig) :
    (addDockerConfig x c).ifCond = c.ifCond := by
  cases x
  · rfl
  · simp only [addDockerConfig]; split <;> rfl

@[simp] theorem addDockerConfig_timeout (x : Option Dict) (c : StepConfig) :
    (addDockerConfig x c).timeout_in_minutes = c.timeout_in_minutes := by
  cases x
  · rfl
  · simp only [addDockerConfig]; split <;> rfl

@[simp] theorem addDockerConfig_extra (x : Option Dict) (c : StepConfig) :
    (addDockerConfig x c).extra = c.extra := by
  cases x
  · rfl
  · simp only [addDockerConfig]; split <;> rfl

theorem addDockerConfig_dockerPlugin (x : Option Dict) (c : StepConfig) :
    (addDockerConfig x c).dockerPlugin =
      match x with
      | some cfg => if cfg = [] then c.dockerPlugin else dictUpdate c.dockerPlugin cfg
      | none => c.dockerPlugin := by
  cases x
  · rfl
  · simp only [addDockerConfig]
    split <;> simp_all

end Autogen

namespace Autogen

/-! ### Field effects of the whole optional-setter chain -/

theorem applyOptionals_label (i : StepInput) (c : StepConfig) :
    (applyOptionals i c).label = c.label := by
  simp [applyOptionals]

theorem applyOptionals_command (i : StepInput) (c : StepConfig) :
    (applyOptionals i c).command = c.command := by
  simp [applyOptionals]

theorem applyOptionals_extra (i : StepInput) (c : StepConfig) :
    (applyOptionals i c).extra = c.extra := by
  simp [applyOptionals]

theorem applyOptionals_ifCond (i : StepInput) (c : StepConfig) :
    (applyOptionals i c).ifCond =
      if truthyStr i.conditional then i.conditional else c.ifCond := by
  simp [applyOptionals, setConditional_ifCond]

theorem applyOptionals_timeout (i : StepInput) (c : StepConfig) :
    (applyOptionals i c).timeout_in_minutes =
      match i.timeout_in_minutes with
      | some t => if t = 0 then c.timeout_in_minutes else t
      | none => c.timeout_in_minutes := by
  simp only [applyOptionals, setAgentQueue_timeout, setTimeoutInMinutes_timeout,
    addDockerConfig_timeout, setConditional_timeout, setHypervisor_timeout,
    setPlatform_timeout]

theorem applyOptionals_dockerPlugin (i : StepInput) (c : StepConfig) :
    (applyOptionals i c).dockerPlugin =
      match i.docker_plugin with
      | some cfg => if cfg = [] then c.dockerPlugin else dictUpdate c.dockerPlugin cfg
      | none => c.dockerPlugin := by
  simp only [applyOptionals, setAgentQueue_dockerPlugin, setTimeoutInMinutes_dockerPlugin,
    addDockerConfig_dockerPlugin, setConditional_dockerPlugin, setHypervisor_dockerPlugin,
    setPlatform_dockerPlugin]

theorem applyOptionals_agents_get_platform (i : StepInput) (c : StepConfig) :
    dictGet (applyOptionals i c).agents "platform" =
      match resolvedPlatformTag i.platform with
      | some s => some (JVal.str s)
      | none => dictGet c.agents "platform" := by
  unfold applyOptionals
  rw [setAgentQueue_agents_get _ _ _ (by decide)]
  rw [setTimeoutInMinutes_agents, addDockerConfig_agents, setConditional_agents]
  rw [setHypervisor_agents_get _ _ _ (by decide)]
  rw [setPlatform_agents_get_platform]

theorem applyOptionals_agents_get_queue (i : StepInput) (c : StepConfig)
    (h : dictGet c.agents "queue" = none) :
    dictGet (applyOptionals i c).agents "queue" =
      if truthyStr i.queue then i.queue.map JVal.str else none := by
  unfold applyOptionals
  rw [setAgentQueue_agents_get_queue]
  rw [setTimeoutInMinutes_agents, addDockerConfig_agents, setConditional_agents]
  rw [setHypervisor_agents_get _ _ _ (by decide)]
  rw [setPlatform_agents_get _ _ _ (by decide), h]

end Autogen

namespace Autogen

/-- Successful runs of `BuildkiteStep.build`, unfolded: the mandatory
checks passed and the result is the optional-setter chain patched by the
environment overrides. -/
theorem build_ok_elim (env : Env) (input : StepInput) (st : BuildkiteStep)
    (hok : BuildkiteStep.build env input = Except.ok st) :
    ∃ name cmd agents2 docker2,
      checkTestName input.test_name = Except.ok name ∧
      resolveCommand input.command input.platform = Except.ok cmd ∧
      envOverrideAgentTags env name
        (applyOptionals input (labeledInit name cmd input.platform)).agents
        = Except.ok agents2 ∧
      envChangeConfig name env.dockerPluginConfig
        (applyOptionals input (labeledInit name cmd input.platform)).dockerPlugin false
        = Except.ok docker2 ∧
      st = { step_config :=
               { applyOptionals input (labeledInit name cmd input.platform) with
                   agents := agents2
                   dockerPlugin := docker2
                   extra := additionalKeys
                     (applyOptionals input (labeledInit name cmd input.platform)).ifCond.isSome
                     input.extra }
             timeout_attr := envOverrideTimeout env name } := by
  unfold BuildkiteStep.build at hok
  cases h1 : checkTestName input.test_name with
  | error e =>
    rw [h1] at hok
    simp only [bind, Except.bind] at hok
    exact Except.noConfusion hok
  | ok name =>
    rw [h1] at hok
    simp only [bind, Except.bind] at hok
    cases h2 : resolveCommand input.command input.platform with
    | error e =>
      rw [h2] at hok
      simp only [Except.bind] at hok
      exact Except.noConfusion hok
    | ok cmd =>
      rw [h2] at hok
      simp only [Except.bind] at hok
      cases h3 : envOverrideAgentTags env name
          (applyOptionals input (labeledInit name cmd input.platform)).agents with
      | error e =>
        rw [h3] at hok
        simp only [Except.bind] at hok
        exact Except.noConfusion hok
      | ok agents2 =>
        rw [h3] at hok
        simp only [Except.bind] at hok
        cases h4 : envChangeConfig name env.dockerPluginConfig
            (applyOptionals input (labeledInit name cmd input.platform)).dockerPlugin false with
        | error e =>
          rw [h4] at hok
          simp only [Except.bind] at hok
          exact Except.noConfusion hok
        | ok docker2 =>
          rw [h4] at hok
          simp only [Except.bind, pure, Except.pure] at hok
          exact ⟨name, cmd, agents2, docker2, rfl, rfl, h3, h4, (Except.ok.inj hok).symm⟩

end Autogen

namespace Autogen

/-! ### Environment override lemmas -/

theorem envChangeConfig_unset (n : String) (target : Dict) (o : Bool) :
    envChangeConfig n none target o = Except.ok target := rfl

theorem envChangeConfig_replace (n : String) (block : EnvOverride)
    (ts : List String) (cs : Dict) (target : Dict)
    (hts : block.tests = some ts) (hcs : block.cfg = some cs) (hcs' : cs ≠ [])
    (hmem : n ∈ ts) :
    envChangeConfig n (some block) target true = Except.ok (pyDict cs) := by
  have hts' : ts ≠ [] := by rintro rfl; exact (List.not_mem_nil n) hmem
  simp [envChangeConfig, hts, hcs, hts', hcs', hmem, pyDict]

theorem envChangeConfig_merge (n : String) (block : EnvOverride)
    (ts : List String) (cs : Dict) (target : Dict)
    (hts : block.tests = some ts) (hcs : block.cfg = some cs) (hcs' : cs ≠ [])
    (hmem : n ∈ ts) :
    envChangeConfig n (some block) target false = Except.ok (dictUpdate target cs) := by
  have hts' : ts ≠ [] := by rintro rfl; exact (List.not_mem_nil n) hmem
  simp [envChangeConfig, hts, hcs, hts', hcs', hmem]

theorem envChangeConfig_cfg_empty (n : String) (block : EnvOverride)
    (ts : List String) (target : Dict) (o : Bool)
    (hts : block.tests = some ts) (hts' : ts ≠ [])
    (hcs : block.cfg = some [] ∨ block.cfg = none) :
    envChangeConfig n (some block) target o
      = Except.error "Environment variable is missing the `cfg` key." := by
  rcases hcs with hcs | hcs <;> simp [envChangeConfig, hts, hts', hcs]

theorem envChangeConfig_tests_empty (n : String) (block : EnvOverride)
    (target : Dict) (o : Bool)
    (hts : block.tests = some [] ∨ block.tests = none) :
    envChangeConfig n (some block) target o
      = Except.error "Environment variable is missing the `tests` key." := by
  rcases hts with hts | hts <;> simp [envChangeConfig, hts]

theorem envOverrideAgentTags_unset (env : Env) (n : String) (agents : Dict)
    (h1 : env.x86AgentTags = none) (h2 : env.aarch64AgentTags = none) :
    envOverrideAgentTags env n agents = Except.ok agents := by
  unfold envOverrideAgentTags
  have hv : (match dictGet agents "platform" with
      | some (JVal.str p) =>
        if p = "x86_64.metal" then env.x86AgentTags
        else if p = "arm.metal" then env.aarch64AgentTags
        else none
      | _ => none) = none := by
    cases dictGet agents "platform" with
    | none => rfl
    | some v => cases v <;> simp [h1, h2]
  rw [hv]
  rfl

theorem envOverrideAgentTags_x86 (env : Env) (n : String) (agents : Dict)
    (block : EnvOverride)
    (hplat : dictGet agents "platform" = some (JVal.str "x86_64.metal"))
    (hx : env.x86AgentTags = some block) :
    envOverrideAgentTags env n agents = envChangeConfig n (some block) agents true := by
  unfold envOverrideAgentTags
  rw [hplat]
  simp [hx]

theorem envOverrideAgentTags_arm (env : Env) (n : String) (agents : Dict)
    (block : EnvOverride)
    (hplat : dictGet agents "platform" = some (JVal.str "arm.metal"))
    (hx : env.aarch64AgentTags = some block) :
    envOverrideAgentTags env n agents = envChangeConfig n (some block) agents true := by
  unfold envOverrideAgentTags
  rw [hplat]
  simp [hx]

theorem checkTestName_ok_iff (o : Option String) (n : String) :
    checkTestName o = Except.ok n ↔ o = some n ∧ n ≠ "" := by
  cases o with
  | none => simp [checkTestName]
  | some s =>
    by_cases hs : s = ""
    · subst hs
      simp [checkTestName, eq_comm]
    · simp only [checkTestName, hs, if_false]
      constructor
      · intro h
        cases h
        exact ⟨rfl, hs⟩
      · rintro ⟨h, -⟩
        cases h
        rfl

end Autogen

namespace Autogen

/-! ### Claim theorems -/

/-- C1 counterexample: on the spec's own example input (one test named
`style` with command `cargo fmt --check`, every override variable unset),
the produced step's agent selector is NOT exactly `{os: linux}` — the
config builder injects the default hypervisor tag, so the selector also
carries `hypervisor: kvm`. -/
theorem C1_selector_not_exactly_os_linux :
    (BuildkiteConfig.build {}
        { tests := some [{ test_name := some "style",
                           command := some "cargo fmt --check" }] }).map
        (fun l => l.map (fun s => s.agents))
      ≠ Except.ok [[("os", JVal.str "linux")]] := by
  intro h
  have h0 : (BuildkiteConfig.build {}
      { tests := some [{ test_name := some "style",
                         command := some "cargo fmt --check" }] }).map
      (fun l => l.map (fun s => s.agents))
      = Except.ok [[("os", JVal.str "linux"), ("hypervisor", JVal.str "kvm")]] := by rfl
  rw [h0] at h
  exact absurd (Except.ok.inj h) (by decide)

/-- C1 (amended): the input
`{"tests": [{"test_name": "style", "command": "cargo fmt --check"}]}`
with every override environment variable unset produces exactly one step,
labeled `style`, command unchanged, default timeout 15 and the default
docker plugin image, and agent selector
`{os: linux, hypervisor: kvm}` (the process-wide default hypervisor tag
is injected because the test specifies none). -/
theorem C1_style_example_step :
    BuildkiteConfig.build {}
        { tests := some [{ test_name := some "style",
                           command := some "cargo fmt --check" }] }
      = Except.ok [{ label := some "style"
                     command := some "cargo fmt --check"
                     retryAutomatic := false
                     agents := [("os", JVal.str "linux"),
                                ("hypervisor", JVal.str "kvm")]
                     dockerPlugin := [("image", JVal.str "rustvmm/dev:v24"),
                                      ("always-pull", JVal.bool true)]
                     ifCond := none
                     timeout_in_minutes := 15
                     extra := [] }] := by rfl

/-- C2 (code bug): with `TIMEOUTS_MIN = {"style": 30}`, building the
`style` step leaves `timeout_in_minutes` in the produced step
configuration at the default 15; the override value 30 is stored in a
stray `timeout_in_minutes` attribute on the step object
(`_env_override_timeout` assigns `self.timeout_in_minutes` instead of
`self.step_config['timeout_in_minutes']`), which never reaches the
output. -/
theorem C2_timeout_override_never_reaches_output :
    (BuildkiteStep.build { timeoutsMin := some [("style", 30)] }
        { test_name := some "style", command := some "cargo fmt --check" }).map
        (fun st => (st.step_config.timeout_in_minutes, st.timeout_attr))
      = Except.ok (15, some 30) := by rfl

/-- C5 counterexample: a timeout key present in the input with value 0 is
NOT copied verbatim — Python truthiness treats 0 as absent and the
default 15 survives. -/
theorem C5_present_zero_timeout_not_copied :
    (BuildkiteStep.build {}
        { test_name := some "t", command := some "c",
          timeout_in_minutes := some 0 }).map
        (fun st => st.step_config.timeout_in_minutes)
      = Except.ok 15 ∧ (15 : Int) ≠ 0 := ⟨rfl, by decide⟩

/-- C7 counterexample: a test whose platform list is present but empty
produces ONE step (the empty list is falsy, so it is replaced by the
single platform `None`), not zero steps as the claim's `N entries -> N
steps` reading requires. -/
theorem C7_empty_platform_list_still_one_step :
    (BuildkiteConfig.build {}
        { tests := some [{ test_name := some "t", command := some "c",
                           platform := some [] }] }).map List.length
      = Except.ok 1 ∧ (1 : Nat) ≠ 0 := ⟨rfl, by decide⟩

end Autogen

namespace Autogen

/-- C3: when the resolved platform attribute matches an agent-tag
override block (`x86_64.metal` for the x86 block, `arm.metal` for the
aarch64 block) whose well-formed `tests` list contains the test name and
whose `cfg` has duplicate-free keys, the final agent selector of a
successfully built step equals exactly the block's `cfg` pairs: every
previously set key (os, platform, hypervisor, queue) is gone — a full
replace, not a merge. -/
theorem C3_agent_tags_override_full_replace (env : Env) (input : StepInput)
    (st : BuildkiteStep) (block : EnvOverride) (ts : List String) (cs : Dict)
    (n : String)
    (hn : input.test_name = some n)
    (hts : block.tests = some ts)
    (hcs : block.cfg = some cs)
    (hmem : n ∈ ts)
    (hnd : (cs.map Prod.fst).Nodup)
    (hpick :
      (resolvedPlatformTag input.platform = some "x86_64.metal" ∧
        env.x86AgentTags = some block) ∨
      (resolvedPlatformTag input.platform = some "arm.metal" ∧
        env.aarch64AgentTags = some block))
    (hok : BuildkiteStep.build env input = Except.ok st) :
    st.step_config.agents = cs := by
  obtain ⟨name, cmd, agents2, docker2, h1, h2, h3, h4, hst⟩ :=
    build_ok_elim env input st hok
  obtain ⟨hn', -⟩ := (checkTestName_ok_iff _ _).1 h1
  rw [hn] at hn'
  obtain rfl : n = name := by
    exact (Option.some.inj hn')
  have hplatc1 :
      dictGet (applyOptionals input (labeledInit n cmd input.platform)).agents "platform"
        = (resolvedPlatformTag input.platform).map JVal.str := by
    rw [applyOptionals_agents_get_platform]
    have hbase :
        dictGet (labeledInit n cmd input.platform).agents "platform" = none := rfl
    cases resolvedPlatformTag input.platform with
    | none => rw [hbase]; rfl
    | some s => rfl
  by_cases hcs' : cs = []
  · subst hcs'
    rcases hpick with ⟨hres, hx⟩ | ⟨hres, hx⟩
    · rw [envOverrideAgentTags_x86 env n _ block (by rw [hplatc1, hres]; rfl) hx] at h3
      rw [envChangeConfig_cfg_empty n block ts _ true hts
          (by rintro rfl; exact (List.not_mem_nil n) hmem) (Or.inl hcs)] at h3
      exact Except.noConfusion h3
    · rw [envOverrideAgentTags_arm env n _ block (by rw [hplatc1, hres]; rfl) hx] at h3
      rw [envChangeConfig_cfg_empty n block ts _ true hts
          (by rintro rfl; exact (List.not_mem_nil n) hmem) (Or.inl hcs)] at h3
      exact Except.noConfusion h3
  · have hrep : agents2 = pyDict cs := by
      rcases hpick with ⟨hres, hx⟩ | ⟨hres, hx⟩
      · rw [envOverrideAgentTags_x86 env n _ block (by rw [hplatc1, hres]; rfl) hx] at h3
        rw [envChangeConfig_replace n block ts cs _ hts hcs hcs' hmem] at h3
        exact (Except.ok.inj h3).symm
      · rw [envOverrideAgentTags_arm env n _ block (by rw [hplatc1, hres]; rfl) hx] at h3
        rw [envChangeConfig_replace n block ts cs _ hts hcs hcs' hmem] at h3
        exact (Except.ok.inj h3).symm
    rw [hst]
    show agents2 = cs
    rw [hrep, pyDict_nodup cs hnd]

end Autogen

namespace Autogen

/-- Override block used to witness C3. -/
def C3block : EnvOverride :=
  { tests := some ["T"], cfg := some [("queue", JVal.str "special")] }

/-- Environment used to witness C3. -/
def C3env : Env := { x86AgentTags := some C3block }

/-- Step input used to witness C3. -/
def C3input : StepInput :=
  { test_name := some "T", command := some "c", platform := some "x86_64",
    hypervisor := some "kvm" }

/-- Step object used to witness C3. -/
def C3step : BuildkiteStep :=
  (BuildkiteStep.build C3env C3input).toOption.getD
    { step_config := {}, timeout_attr := none }

theorem C3_witness :
    BuildkiteStep.build C3env C3input = Except.ok C3step ∧
    C3step.step_config.agents = [("queue", JVal.str "special")] :=
  ⟨rfl,
   C3_agent_tags_override_full_replace C3env C3input C3step C3block ["T"]
     [("queue", JVal.str "special")] "T" rfl rfl rfl (by decide) (by decide)
     (Or.inl ⟨rfl, rfl⟩) rfl⟩

end Autogen

namespace Autogen

/-- The docker plugin configuration after the defaults and the
TestDescription's own `docker_plugin` mapping were applied (the state the
environment override merges into). -/
def dockerAfterInput (docker : Option Dict) : Dict :=
  (addDockerConfig docker initStepConfig).dockerPlugin

/-- C4: when the docker-plugin override block applies (well-formed block,
test name in its list), the block's `cfg` pairs are merged into the
existing docker-plugin configuration rather than replacing it: the
result is a Python-dict update of the pre-override configuration, so a
key the override does not mention keeps its earlier value and a key in
both takes the override's value. -/
theorem C4_docker_plugin_override_merges (env : Env) (input : StepInput)
    (st : BuildkiteStep) (block : EnvOverride) (ts : List String) (cs : Dict)
    (n : String)
    (hn : input.test_name = some n)
    (hdp : env.dockerPluginConfig = some block)
    (hts : block.tests = some ts)
    (hcs : block.cfg = some cs)
    (hmem : n ∈ ts)
    (hok : BuildkiteStep.build env input = Except.ok st) :
    st.step_config.dockerPlugin = dictUpdate (dockerAfterInput input.docker_plugin) cs ∧
    ∀ k, dictGet st.step_config.dockerPlugin k
        = orD (dictGet (pyDict cs) k) (dictGet (dockerAfterInput input.docker_plugin) k) := by
  obtain ⟨name, cmd, agents2, docker2, h1, h2, h3, h4, hst⟩ :=
    build_ok_elim env input st hok
  obtain ⟨hn', -⟩ := (checkTestName_ok_iff _ _).1 h1
  rw [hn] at hn'
  obtain rfl : n = name := Option.some.inj hn'
  have hc1 : (applyOptionals input (labeledInit n cmd input.platform)).dockerPlugin
      = dockerAfterInput input.docker_plugin := by
    rw [applyOptionals_dockerPlugin]
    unfold dockerAfterInput
    rw [addDockerConfig_dockerPlugin]
    rfl
  rw [hdp, hc1] at h4
  by_cases hcs' : cs = []
  · subst hcs'
    rw [envChangeConfig_cfg_empty n block ts _ false hts
        (by rintro rfl; exact (List.not_mem_nil n) hmem) (Or.inl hcs)] at h4
    exact Except.noConfusion h4
  · rw [envChangeConfig_merge n block ts cs _ hts hcs hcs' hmem] at h4
    have hdocker : docker2 = dictUpdate (dockerAfterInput input.docker_plugin) cs :=
      (Except.ok.inj h4).symm
    constructor
    · rw [hst]
      show docker2 = _
      exact hdocker
    · intro k
      rw [hst]
      show dictGet docker2 k = _
      rw [hdocker, dictGet_dictUpdate]

/-- Override block used to witness C4. -/
def C4block : EnvOverride :=
  { tests := some ["T"], cfg := some [("devices", JVal.strList ["/dev/foo"])] }

/-- Environment used to witness C4. -/
def C4env : Env := { dockerPluginConfig := some C4block }

/-- Step input used to witness C4. -/
def C4input : StepInput :=
  { test_name := some "T", command := some "c",
    docker_plugin := some [("privileged", JVal.bool true)] }

/-- Step object used to witness C4. -/
def C4step : BuildkiteStep :=
  (BuildkiteStep.build C4env C4input).toOption.getD
    { step_config := {}, timeout_attr := none }

theorem C4_witness :
    BuildkiteStep.build C4env C4input = Except.ok C4step ∧
    C4step.step_config.dockerPlugin
      = [("image", JVal.str "rustvmm/dev:v24"), ("always-pull", JVal.bool true),
         ("privileged", JVal.bool true), ("devices", JVal.strList ["/dev/foo"])] := by
  refine ⟨rfl, ?_⟩
  have h := (C4_docker_plugin_override_merges C4env C4input C4step C4block ["T"]
      [("devices", JVal.strList ["/dev/foo"])] "T" rfl rfl rfl rfl (by decide) rfl).1
  rw [h]
  rfl

end Autogen

namespace Autogen

/-- C5 (amended): with no applicable agent-tag override, the conditional
expression, the explicit timeout and the agent queue of a successfully
built step are each copied verbatim exactly when present with a truthy
value (nonempty string, nonzero integer); an absent key — or a present
falsy value such as 0 or the empty string — leaves the default (no `if`
key, timeout 15, no queue tag). -/
theorem C5_verbatim_when_truthy (env : Env) (input : StepInput)
    (st : BuildkiteStep)
    (hx86 : env.x86AgentTags = none) (haarch : env.aarch64AgentTags = none)
    (hok : BuildkiteStep.build env input = Except.ok st) :
    st.step_config.ifCond
        = (if truthyStr input.conditional then input.conditional else none) ∧
    st.step_config.timeout_in_minutes
        = (match input.timeout_in_minutes with
           | some t => if t = 0 then 15 else t
           | none => 15) ∧
    dictGet st.step_config.agents "queue"
        = (if truthyStr input.queue then input.queue.map JVal.str else none) := by
  obtain ⟨name, cmd, agents2, docker2, h1, h2, h3, h4, hst⟩ :=
    build_ok_elim env input st hok
  have hagents : agents2 = (applyOptionals input (labeledInit name cmd input.platform)).agents := by
    rw [envOverrideAgentTags_unset env name _ hx86 haarch] at h3
    exact (Except.ok.inj h3).symm
  refine ⟨?_, ?_, ?_⟩
  · rw [hst]
    show (applyOptionals input (labeledInit name cmd input.platform)).ifCond = _
    rw [applyOptionals_ifCond]
    have : (labeledInit name cmd input.platform).ifCond = none := rfl
    rw [this]
  · rw [hst]
    show (applyOptionals input (labeledInit name cmd input.platform)).timeout_in_minutes = _
    rw [applyOptionals_timeout]
    have : (labeledInit name cmd input.platform).timeout_in_minutes = 15 := rfl
    rw [this]
  · rw [hst]
    show dictGet agents2 "queue" = _
    rw [hagents]
    rw [applyOptionals_agents_get_queue]
    rfl

/-- Step input used to witness C5. -/
def C5input : StepInput :=
  { test_name := some "t", command := some "c",
    conditional := some "build.branch == main", timeout_in_minutes := some 7,
    queue := some "special" }

/-- Step object used to witness C5. -/
def C5step : BuildkiteStep :=
  (BuildkiteStep.build {} C5input).toOption.getD
    { step_config := {}, timeout_attr := none }

theorem C5_witness :
    BuildkiteStep.build {} C5input = Except.ok C5step ∧
    C5step.step_config.ifCond = some "build.branch == main" ∧
    C5step.step_config.timeout_in_minutes = 7 ∧
    dictGet C5step.step_config.agents "queue" = some (JVal.str "special") := by
  obtain ⟨h1, h2, h3⟩ := C5_verbatim_when_truthy {} C5input C5step rfl rfl rfl
  refine ⟨rfl, ?_, ?_, ?_⟩
  · rw [h1]; rfl
  · rw [h2]; rfl
  · rw [h3]; rfl

/-- C6: with no applicable agent-tag override, the agent selector's
platform attribute of a successfully built step is the input platform
suffixed with `.metal` after the single rewrite `aarch64 -> arm`
(`x86_64` gives `x86_64.metal`, any other nonempty string passes through
unvalidated as `p.metal`), and no platform attribute appears when the
platform is absent (or empty, which Python truthiness treats as
absent). -/
theorem C6_platform_attribute (env : Env) (input : StepInput)
    (st : BuildkiteStep)
    (hx86 : env.x86AgentTags = none) (haarch : env.aarch64AgentTags = none)
    (hok : BuildkiteStep.build env input = Except.ok st) :
    dictGet st.step_config.agents "platform"
      = match input.platform with
        | some p =>
          if p = "" then none
          else some (JVal.str ((if p = "aarch64" then "arm" else p) ++ ".metal"))
        | none => none := by
  obtain ⟨name, cmd, agents2, docker2, h1, h2, h3, h4, hst⟩ :=
    build_ok_elim env input st hok
  have hagents : agents2 = (applyOptionals input (labeledInit name cmd input.platform)).agents := by
    rw [envOverrideAgentTags_unset env name _ hx86 haarch] at h3
    exact (Except.ok.inj h3).symm
  rw [hst]
  show dictGet agents2 "platform" = _
  rw [hagents, applyOptionals_agents_get_platform]
  cases input.platform with
  | none => rfl
  | some p =>
    simp only [resolvedPlatformTag]
    by_cases hp : p = ""
    · subst hp
      rfl
    · simp [hp]

/-- Step input used to witness C6. -/
def C6input : StepInput :=
  { test_name := some "t", command := some "c", platform := some "aarch64" }

/-- Step object used to witness C6. -/
def C6step : BuildkiteStep :=
  (BuildkiteStep.build {} C6input).toOption.getD
    { step_config := {}, timeout_attr := none }

theorem C6_witness :
    BuildkiteStep.build {} C6input = Except.ok C6step ∧
    dictGet C6step.step_config.agents "platform" = some (JVal.str "arm.metal") := by
  refine ⟨rfl, ?_⟩
  have h := C6_platform_attribute {} C6input C6step rfl rfl rfl
  rw [h]
  rfl

end Autogen

namespace Autogen

/-- C10: for an override block handed to `_env_change_config`, a `tests`
key present but bound to an empty list aborts with the same fatal
assertion as a missing `tests` key, and (given a truthy `tests` list) a
`cfg` key present but bound to an empty object aborts with the same
fatal assertion as a missing `cfg` key; consequently a docker-plugin
override block with any such empty-but-present (or missing) sub-key
makes `BuildkiteStep.build` fail — an empty sub-key is never a valid
no-op override. -/
theorem C10_empty_subkey_same_fatal_assertion (n : String) (target : Dict)
    (o : Bool) (block : EnvOverride) :
    ((block.tests = some [] ∨ block.tests = none) →
       envChangeConfig n (some block) target o
           = Except.error "Environment variable is missing the `tests` key." ∧
       envChangeConfig n (some block) target o
           = envChangeConfig n (some { tests := none, cfg := block.cfg }) target o) ∧
    (∀ ts, block.tests = some ts → ts ≠ [] →
       (block.cfg = some [] ∨ block.cfg = none) →
       envChangeConfig n (some block) target o
           = Except.error "Environment variable is missing the `cfg` key." ∧
       envChangeConfig n (some block) target o
           = envChangeConfig n (some { tests := block.tests, cfg := none }) target o) ∧
    (∀ (env : Env) (input : StepInput) (st : BuildkiteStep),
       env.dockerPluginConfig = some block →
       (block.tests = some [] ∨ block.tests = none ∨
        block.cfg = some [] ∨ block.cfg = none) →
       BuildkiteStep.build env input ≠ Except.ok st) := by
  refine ⟨?_, ?_, ?_⟩
  · intro hts
    constructor
    · exact envChangeConfig_tests_empty n block target o hts
    · rw [envChangeConfig_tests_empty n block target o hts,
          envChangeConfig_tests_empty n { tests := none, cfg := block.cfg } target o
            (Or.inr rfl)]
  · intro ts hts hts' hcs
    constructor
    · exact envChangeConfig_cfg_empty n block ts target o hts hts' hcs
    · rw [envChangeConfig_cfg_empty n block ts target o hts hts' hcs,
          envChangeConfig_cfg_empty n { tests := block.tests, cfg := none } ts target o
            hts hts' (Or.inr rfl)]
  · intro env input st hdp hbad hok
    obtain ⟨name, cmd, agents2, docker2, h1, h2, h3, h4, hst⟩ :=
      build_ok_elim env input st hok
    rw [hdp] at h4
    rcases hbad with h | h | h | h
    · rw [envChangeConfig_tests_empty name block _ false (Or.inl h)] at h4
      exact Except.noConfusion h4
    · rw [envChangeConfig_tests_empty name block _ false (Or.inr h)] at h4
      exact Except.noConfusion h4
    · cases hbt : block.tests with
      | none =>
        rw [envChangeConfig_tests_empty name block _ false (Or.inr hbt)] at h4
        exact Except.noConfusion h4
      | some l =>
        cases l with
        | nil =>
          rw [envChangeConfig_tests_empty name block _ false (Or.inl hbt)] at h4
          exact Except.noConfusion h4
        | cons a as =>
          rw [envChangeConfig_cfg_empty name block (a :: as) _ false hbt
              (List.cons_ne_nil a as) (Or.inl h)] at h4
          exact Except.noConfusion h4
    · cases hbt : block.tests with
      | none =>
        rw [envChangeConfig_tests_empty name block _ false (Or.inr hbt)] at h4
        exact Except.noConfusion h4
      | some l =>
        cases l with
        | nil =>
          rw [envChangeConfig_tests_empty name block _ false (Or.inl hbt)] at h4
          exact Except.noConfusion h4
        | cons a as =>
          rw [envChangeConfig_cfg_empty name block (a :: as) _ false hbt
              (List.cons_ne_nil a as) (Or.inr h)] at h4
          exact Except.noConfusion h4

theorem C10_witness :
    envChangeConfig "t"
        (some { tests := some [], cfg := some [("privileged", JVal.bool true)] })
        [] false
      = Except.error "Environment variable is missing the `tests` key." ∧
    envChangeConfig "t" (some { tests := some ["t"], cfg := some [] }) [] false
      = Except.error "Environment variable is missing the `cfg` key." :=
  ⟨((C10_empty_subkey_same_fatal_assertion "t" [] false
      { tests := some [], cfg := some [("privileged", JVal.bool true)] }).1
      (Or.inl rfl)).1,
   (((C10_empty_subkey_same_fatal_assertion "t" [] false
      { tests := some ["t"], cfg := some [] }).2.1) ["t"] rfl (by decide)
      (Or.inl rfl)).1⟩

end Autogen

namespace Autogen

theorem isSkipped_true_of_mem (env : Env) (t : TestDescription)
    (skip : List String) (n : String)
    (hskip : env.testsToSkip = some skip) (hn : t.test_name = some n)
    (hmem : n ∈ skip) : isSkipped env t = true := by
  simp [isSkipped, hskip, hn, hmem]

theorem expandTest_skipped (env : Env) (t : TestDescription)
    (h : isSkipped env t = true) : expandTest env t = Except.ok [] := by
  simp [expandTest, h]

theorem configSteps_cons_skipped (env : Env) (t : TestDescription)
    (rest : List TestDescription) (h : isSkipped env t = true) :
    configSteps env (t :: rest) = configSteps env rest := by
  show (do
      let head ← expandTest env t
      let tail ← configSteps env rest
      return head ++ tail) = configSteps env rest
  rw [expandTest_skipped env t h]
  cases hr : configSteps env rest <;> simp [bind, Except.bind, hr, pure, Except.pure]

theorem configSteps_middle_skipped (env : Env) (t : TestDescription)
    (h : isSkipped env t = true) :
    ∀ (pre post : List TestDescription),
      configSteps env (pre ++ t :: post) = configSteps env (pre ++ post) := by
  intro pre
  induction pre with
  | nil => intro post; exact configSteps_cons_skipped env t post h
  | cons q pre ih =>
    intro post
    show configSteps env (q :: (pre ++ t :: post)) = configSteps env (q :: (pre ++ post))
    simp only [configSteps]
    simp only [ih]

theorem build_eq_configSteps (env : Env) (ts : List TestDescription)
    (h : ts ≠ []) :
    BuildkiteConfig.build env { tests := some ts } = configSteps env ts := by
  cases ts with
  | nil => exact absurd rfl h
  | cons a as => rfl

/-- C8: a test whose name is in the TESTS_TO_SKIP list contributes zero
steps, whatever its platform list holds, and removing it from any
position of the tests list leaves the generated document unchanged
(provided the remaining list is nonempty — an empty `tests` list is
itself fatal). -/
theorem C8_skip_list_removes_test (env : Env) (t : TestDescription)
    (skip : List String) (n : String)
    (hskip : env.testsToSkip = some skip) (hn : t.test_name = some n)
    (hmem : n ∈ skip) :
    BuildkiteConfig.build env { tests := some [t] } = Except.ok [] ∧
    ∀ (pre post : List TestDescription), pre ++ post ≠ [] →
      BuildkiteConfig.build env { tests := some (pre ++ t :: post) }
        = BuildkiteConfig.build env { tests := some (pre ++ post) } := by
  have hsk : isSkipped env t = true := isSkipped_true_of_mem env t skip n hskip hn hmem
  constructor
  · show configSteps env [t] = Except.ok []
    rw [configSteps_cons_skipped env t [] hsk]
    rfl
  · intro pre post hne
    rw [build_eq_configSteps env _ (by simp), build_eq_configSteps env _ hne,
        configSteps_middle_skipped env t hsk pre post]

/-- Environment used to witness C8. -/
def C8env : Env := { testsToSkip := some ["x"] }

/-- Skipped test used to witness C8. -/
def C8skipped : TestDescription :=
  { test_name := some "x", command := some "c",
    platform := some ["x86_64", "aarch64"] }

/-- Kept test used to witness C8. -/
def C8kept : TestDescription := { test_name := some "y", command := some "c" }

theorem C8_witness :
    BuildkiteConfig.build C8env { tests := some [C8skipped] } = Except.ok [] ∧
    BuildkiteConfig.build C8env { tests := some ([C8kept] ++ C8skipped :: []) }
      = BuildkiteConfig.build C8env { tests := some ([C8kept] ++ []) } := by
  have h := C8_skip_list_removes_test C8env C8skipped ["x"] "x" rfl rfl (by decide)
  exact ⟨h.1, h.2 [C8kept] [] (by decide)⟩

end Autogen

namespace Autogen

theorem build_label (env : Env) (input : StepInput) (st : BuildkiteStep)
    (hok : BuildkiteStep.build env input = Except.ok st) :
    ∃ n, input.test_name = some n ∧ n ≠ "" ∧
      st.step_config.label = some (stepLabel n input.platform) := by
  obtain ⟨name, cmd, agents2, docker2, h1, h2, h3, h4, hst⟩ :=
    build_ok_elim env input st hok
  obtain ⟨hn, hne⟩ := (checkTestName_ok_iff _ _).1 h1
  refine ⟨name, hn, hne, ?_⟩
  rw [hst]
  show (applyOptionals input (labeledInit name cmd input.platform)).label = _
  rw [applyOptionals_label]
  rfl

theorem build_platform_attr (env : Env) (input : StepInput) (st : BuildkiteStep)
    (hx86 : env.x86AgentTags = none) (haarch : env.aarch64AgentTags = none)
    (hok : BuildkiteStep.build env input = Except.ok st) :
    dictGet st.step_config.agents "platform"
      = (resolvedPlatformTag input.platform).map JVal.str := by
  obtain ⟨name, cmd, agents2, docker2, h1, h2, h3, h4, hst⟩ :=
    build_ok_elim env input st hok
  have hagents : agents2
      = (applyOptionals input (labeledInit name cmd input.platform)).agents := by
    rw [envOverrideAgentTags_unset env name _ hx86 haarch] at h3
    exact (Except.ok.inj h3).symm
  rw [hst]
  show dictGet agents2 "platform" = _
  rw [hagents, applyOptionals_agents_get_platform]
  cases resolvedPlatformTag input.platform with
  | none => rfl
  | some s => rfl

theorem mapM_build_shape (env : Env) (t : TestDescription)
    (hx86 : env.x86AgentTags = none) (haarch : env.aarch64AgentTags = none) :
    ∀ (ps : List (Option String)) (steps : List StepConfig),
      ps.mapM (fun p => (BuildkiteStep.build env (toStepInput env t p)).map
          (fun st => st.step_config)) = Except.ok steps →
      steps.map (fun s => (s.label, dictGet s.agents "platform"))
        = ps.map (fun p =>
            (some (stepLabel (t.test_name.getD "") p),
             (resolvedPlatformTag p).map JVal.str)) := by
  intro ps
  induction ps with
  | nil =>
    intro steps h
    rw [List.mapM_nil] at h
    obtain rfl : [] = steps := Except.ok.inj h
    rfl
  | cons p ps ih =>
    intro steps h
    rw [List.mapM_cons] at h
    cases hb : BuildkiteStep.build env (toStepInput env t p) with
    | error e =>
      rw [hb] at h
      exact Except.noConfusion h
    | ok st =>
      rw [hb] at h
      cases hrest : ps.mapM (fun p => (BuildkiteStep.build env (toStepInput env t p)).map
          (fun st => st.step_config)) with
      | error e =>
        rw [hrest] at h
        exact Except.noConfusion h
      | ok rest =>
        rw [hrest] at h
        obtain rfl : st.step_config :: rest = steps := Except.ok.inj h
        obtain ⟨n, hn, hne, hlabel⟩ := build_label env (toStepInput env t p) st hb
        have hn' : t.test_name = some n := hn
        have hattr := build_platform_attr env (toStepInput env t p) st hx86 haarch hb
        simp only [List.map_cons]
        rw [ih rest hrest]
        have hplat : (toStepInput env t p).platform = p := rfl
        rw [hplat] at hlabel
        rw [hattr, hlabel, hn']
        rfl

end Autogen

namespace Autogen

theorem expandTest_shape (env : Env) (t : TestDescription)
    (hx86 : env.x86AgentTags = none) (haarch : env.aarch64AgentTags = none)
    (steps : List StepConfig) (h : expandTest env t = Except.ok steps) :
    steps.map (fun s => (s.label, dictGet s.agents "platform"))
      = if isSkipped env t then []
        else (platformsOf t).map (fun p =>
          (some (stepLabel (t.test_name.getD "") p),
           (resolvedPlatformTag p).map JVal.str)) := by
  by_cases hsk : isSkipped env t
  · rw [if_pos hsk]
    unfold expandTest at h
    rw [if_pos hsk] at h
    obtain rfl : [] = steps := Except.ok.inj h
    rfl
  · rw [if_neg hsk]
    unfold expandTest at h
    rw [if_neg hsk] at h
    exact mapM_build_shape env t hx86 haarch (platformsOf t) steps h

theorem configSteps_shape (env : Env)
    (hx86 : env.x86AgentTags = none) (haarch : env.aarch64AgentTags = none) :
    ∀ (ts : List TestDescription) (steps : List StepConfig),
      configSteps env ts = Except.ok steps →
      steps.map (fun s => (s.label, dictGet s.agents "platform"))
        = (ts.filter (fun t => !isSkipped env t)).flatMap (fun t =>
            (platformsOf t).map (fun p =>
              (some (stepLabel (t.test_name.getD "") p),
               (resolvedPlatformTag p).map JVal.str))) := by
  intro ts
  induction ts with
  | nil =>
    intro steps h
    obtain rfl : [] = steps := Except.ok.inj h
    rfl
  | cons t rest ih =>
    intro steps h
    simp only [configSteps] at h
    cases hh : expandTest env t with
    | error e =>
      rw [hh] at h
      exact Except.noConfusion h
    | ok head =>
      rw [hh] at h
      cases ht : configSteps env rest with
      | error e =>
        rw [ht] at h
        exact Except.noConfusion h
      | ok tail =>
        rw [ht] at h
        obtain rfl : head ++ tail = steps := Except.ok.inj h
        rw [List.map_append, expandTest_shape env t hx86 haarch head hh,
            ih tail ht]
        by_cases hsk : isSkipped env t
        · simp [List.filter_cons, hsk]
        · simp [List.filter_cons, hsk]

end Autogen

namespace Autogen

/-- C7 (amended): with no applicable agent-tag override, the generated
steps are, in order, one per expanded platform of each non-skipped test
in input order: a test with a nonempty platform list of N entries yields
exactly N steps in list order (label `name-platform`, platform attribute
`platform.metal` after the `aarch64 -> arm` rewrite), and a test with no
platform field — or, the amendment, a present-but-empty platform list —
yields exactly one step with no platform attribute in its agent
selector (`platformsOf` maps both to the single platform `None`). -/
theorem C7_platform_expansion (env : Env) (ts : List TestDescription)
    (steps : List StepConfig)
    (hx86 : env.x86AgentTags = none) (haarch : env.aarch64AgentTags = none)
    (hok : BuildkiteConfig.build env { tests := some ts } = Except.ok steps) :
    steps.map (fun s => (s.label, dictGet s.agents "platform"))
      = (ts.filter (fun t => !isSkipped env t)).flatMap (fun t =>
          (platformsOf t).map (fun p =>
            (some (stepLabel (t.test_name.getD "") p),
             (resolvedPlatformTag p).map JVal.str))) := by
  cases ts with
  | nil => exact Except.noConfusion hok
  | cons t rest =>
    exact configSteps_shape env hx86 haarch (t :: rest) steps hok

/-- Tests list used to witness C7. -/
def C7tests : List TestDescription :=
  [{ test_name := some "a", command := some "c",
     platform := some ["x86_64", "aarch64"] },
   { test_name := some "b", command := some "c" }]

/-- Steps list used to witness C7. -/
def C7steps : List StepConfig :=
  (BuildkiteConfig.build {} { tests := some C7tests }).toOption.getD []

theorem C7_witness :
    BuildkiteConfig.build {} { tests := some C7tests } = Except.ok C7steps ∧
    C7steps.map (fun s => (s.label, dictGet s.agents "platform"))
      = [(some "a-x86_64", some (JVal.str "x86_64.metal")),
         (some "a-aarch64", some (JVal.str "arm.metal")),
         (some "b", none)] := by
  refine ⟨rfl, ?_⟩
  rw [C7_platform_expansion {} C7tests C7steps rfl rfl rfl]
  rfl

end Autogen

namespace Autogen

/-- Follows claim C9's words (spec-side characterization, to compare
with the embedded `BuildkiteStep.build`): the fatal input cases of the
step builder — missing or empty test name, missing or empty command, or
a command containing the `{target_platform}` token with no (truthy)
platform — with their messages, in check order. -/
def specStepFailure (input : StepInput) : Option String :=
  if truthyStr input.test_name = false then some "Step is missing test name."
  else if truthyStr input.command = false then some "Step is missing command."
  else if hasTargetPlatformTok (input.command.getD "") && !truthyStr input.platform then
    some "Command requires platform, but platform is missing."
  else none

/-- With every override variable unset, `build` is the two mandatory
checks followed by the pure optional-setter chain. -/
theorem build_noenv_eq (input : StepInput) :
    BuildkiteStep.build {} input
      = (checkTestName input.test_name).bind (fun name =>
          (resolveCommand input.command input.platform).map (fun cmd =>
            { step_config :=
                { applyOptionals input (labeledInit name cmd input.platform) with
                    extra := additionalKeys
                      (applyOptionals input (labeledInit name cmd input.platform)).ifCond.isSome
                      input.extra }
              timeout_attr := none })) := by
  unfold BuildkiteStep.build
  cases h1 : checkTestName input.test_name with
  | error e => rfl
  | ok name =>
    cases h2 : resolveCommand input.command input.platform with
    | error e => rfl
    | ok cmd =>
      simp only [bind, Except.bind]
      rw [envOverrideAgentTags_unset {} name
        ((applyOptionals input (labeledInit name cmd input.platform)).agents) rfl rfl]
      rfl

end Autogen

namespace Autogen

theorem resolveCommand_ok_replace (cmdO platO : Option String)
    (c cmd p : String)
    (hc : cmdO = some cmd) (hp : platO = some p)
    (htok : hasTargetPlatformTok cmd = true)
    (hok : resolveCommand cmdO platO = Except.ok c) :
    c = cmd.replace "{target_platform}" p := by
  subst hc
  subst hp
  simp only [resolveCommand] at hok
  by_cases hce : cmd = ""
  · rw [if_pos hce] at hok
    exact Except.noConfusion hok
  · rw [if_neg hce] at hok
    rw [htok] at hok
    simp only [if_true] at hok
    by_cases hpe : p = ""
    · rw [if_pos hpe] at hok
      exact Except.noConfusion hok
    · rw [if_neg hpe] at hok
      exact (Except.ok.inj hok).symm

theorem build_command_field (env : Env) (input : StepInput) (st : BuildkiteStep)
    (hok : BuildkiteStep.build env input = Except.ok st) :
    ∃ c, resolveCommand input.command input.platform = Except.ok c ∧
      st.step_config.command = some c := by
  obtain ⟨name, cmd, agents2, docker2, h1, h2, h3, h4, hst⟩ :=
    build_ok_elim env input st hok
  refine ⟨cmd, h2, ?_⟩
  rw [hst]
  show (applyOptionals input (labeledInit name cmd input.platform)).command = _
  rw [applyOptionals_command]
  rfl

end Autogen

namespace Autogen

/-- C9: with every override environment variable unset, the step builder
fails exactly in the claim's three input cases, with the claimed
messages and in check order — missing or empty test name, then missing
or empty command, then a command containing the `{target_platform}`
token with no (truthy) platform; in every other case it succeeds, and
when the command contains the token and a platform was supplied, every
occurrence of the token in the emitted command is replaced by the
literal platform string. -/
theorem C9_fatal_cases_exact (input : StepInput) :
    (∀ e, BuildkiteStep.build {} input = Except.error e ↔
       specStepFailure input = some e) ∧
    (specStepFailure input = none →
       ∃ st, BuildkiteStep.build {} input = Except.ok st ∧
         ∀ cmd p, input.command = some cmd → input.platform = some p →
           hasTargetPlatformTok cmd = true →
           st.step_config.command = some (cmd.replace "{target_platform}" p)) := by
  constructor
  · intro e
    rw [build_noenv_eq]
    unfold specStepFailure
    cases hn : input.test_name with
    | none => simp [checkTestName, truthyStr, bind, Except.bind]
    | some n =>
      by_cases hne : n = ""
      · subst hne
        simp [checkTestName, truthyStr, bind, Except.bind]
      · have hcheck : checkTestName (some n) = Except.ok n := by
          simp [checkTestName, hne]
        rw [hcheck]
        have htr : truthyStr (some n) = true := by simp [truthyStr, hne]
        rw [htr]
        simp only [bind, Except.bind, Bool.true_eq_false, if_false]
        cases hc : input.command with
        | none => simp [resolveCommand, truthyStr, Except.map]
        | some cmd =>
          by_cases hce : cmd = ""
          · subst hce
            simp [resolveCommand, truthyStr, Except.map]
          · have htrc : truthyStr (some cmd) = true := by simp [truthyStr, hce]
            rw [htrc]
            simp only [Bool.true_eq_false, if_false, Option.getD_some]
            by_cases htok : hasTargetPlatformTok cmd
            · cases hp : input.platform with
              | none =>
                simp [resolveCommand, hce, htok, truthyStr, Except.map]
              | some p =>
                by_cases hpe : p = ""
                · subst hpe
                  simp [resolveCommand, hce, htok, truthyStr, Except.map]
                · simp [resolveCommand, hce, htok, truthyStr, hpe, Except.map]
            · simp [resolveCommand, hce, htok, truthyStr, Except.map]
  · intro hnone
    have hbits : truthyStr input.test_name = true ∧ truthyStr input.command = true ∧
        (hasTargetPlatformTok (input.command.getD "") && !truthyStr input.platform) = false := by
      unfold specStepFailure at hnone
      by_cases h1 : truthyStr input.test_name = false
      · rw [if_pos h1] at hnone; exact Option.noConfusion hnone
      · rw [if_neg h1] at hnone
        by_cases h2 : truthyStr input.command = false
        · rw [if_pos h2] at hnone; exact Option.noConfusion hnone
        · rw [if_neg h2] at hnone
          by_cases h3 : (hasTargetPlatformTok (input.command.getD "")
              && !truthyStr input.platform) = true
          · rw [if_pos h3] at hnone; exact Option.noConfusion hnone
          · exact ⟨Bool.of_not_eq_false h1, Bool.of_not_eq_false h2,
              Bool.of_not_eq_true h3⟩
    obtain ⟨hname, hcmd, htokplat⟩ := hbits
    obtain ⟨n, hn, hne⟩ : ∃ n, input.test_name = some n ∧ n ≠ "" := by
      cases hnv : input.test_name with
      | none => rw [hnv] at hname; exact Bool.noConfusion hname
      | some n =>
        refine ⟨n, rfl, ?_⟩
        rw [hnv] at hname
        intro hcontra
        subst hcontra
        simp [truthyStr] at hname
    obtain ⟨cmd0, hc0, hce0⟩ : ∃ c, input.command = some c ∧ c ≠ "" := by
      cases hcv : input.command with
      | none => rw [hcv] at hcmd; exact Bool.noConfusion hcmd
      | some c =>
        refine ⟨c, rfl, ?_⟩
        rw [hcv] at hcmd
        intro hcontra
        subst hcontra
        simp [truthyStr] at hcmd
    obtain ⟨c, hres⟩ : ∃ c, resolveCommand input.command input.platform = Except.ok c := by
      rw [hc0]
      simp only [resolveCommand, hce0, if_neg]
      by_cases htok : hasTargetPlatformTok cmd0
      · rw [hc0, Option.getD_some, htok] at htokplat
        simp only [Bool.true_and, Bool.not_eq_false'] at htokplat
        obtain ⟨p, hp, hpe⟩ : ∃ p, input.platform = some p ∧ p ≠ "" := by
          cases hpv : input.platform with
          | none => rw [hpv] at htokplat; exact Bool.noConfusion htokplat
          | some p =>
            refine ⟨p, rfl, ?_⟩
            rw [hpv] at htokplat
            intro hcontra
            subst hcontra
            simp [truthyStr] at htokplat
        rw [hp, htok]
        simp only [if_true, hpe, if_neg]
        exact ⟨_, rfl⟩
      · rw [show hasTargetPlatformTok cmd0 = false from Bool.of_not_eq_true htok]
        simp only [Bool.false_eq_true, if_false]
        exact ⟨cmd0, rfl⟩
    have hbuild : ∃ st, BuildkiteStep.build {} input = Except.ok st := by
      rw [build_noenv_eq]
      have hcheck : checkTestName input.test_name = Except.ok n := by
        rw [hn]
        simp [checkTestName, hne]
      rw [hcheck]
      simp only [bind, Except.bind]
      rw [hres]
      exact ⟨_, rfl⟩
    obtain ⟨st, hst⟩ := hbuild
    refine ⟨st, hst, ?_⟩
    intro cmd p hcm hpl htok
    obtain ⟨c', hres', hcomm⟩ := build_command_field {} input st hst
    rw [hcomm, resolveCommand_ok_replace input.command input.platform c' cmd p hcm hpl htok hres']

end Autogen

namespace Autogen

/-- Input with a missing test name used to witness C9. -/
def C9noName : StepInput := { command := some "c" }

/-- Input with an empty command used to witness C9. -/
def C9noCommand : StepInput := { test_name := some "t", command := some "" }

/-- Input with a templated command and no platform used to witness C9. -/
def C9noPlatform : StepInput :=
  { test_name := some "t", command := some "echo {target_platform}" }

/-- Input with a platform-templated command used to witness C9. -/
def C9okInput : StepInput :=
  { test_name := some "t", command := some "echo {target_platform}",
    platform := some "x86_64" }

/-- Step object used to witness C9. -/
def C9okStep : BuildkiteStep :=
  (BuildkiteStep.build {} C9okInput).toOption.getD
    { step_config := {}, timeout_attr := none }

theorem C9_witness :
    BuildkiteStep.build {} C9noName = Except.error "Step is missing test name." ∧
    BuildkiteStep.build {} C9noCommand = Except.error "Step is missing command." ∧
    BuildkiteStep.build {} C9noPlatform
      = Except.error "Command requires platform, but platform is missing." ∧
    C9okStep.step_config.command
      = some ("echo {target_platform}".replace "{target_platform}" "x86_64") := by
  refine ⟨?_, ?_, ?_, ?_⟩
  · exact ((C9_fatal_cases_exact C9noName).1 "Step is missing test name.").mpr rfl
  · exact ((C9_fatal_cases_exact C9noCommand).1 "Step is missing command.").mpr rfl
  · exact ((C9_fatal_cases_exact C9noPlatform).1
      "Command requires platform, but platform is missing.").mpr rfl
  · obtain ⟨st, hst, hrepl⟩ := (C9_fatal_cases_exact C9okInput).2 rfl
    have he : C9okStep = st := by
      unfold C9okStep
      rw [hst]
      rfl
    rw [he]
    exact hrepl "echo {target_platform}" "x86_64" rfl rfl (by decide)

end Autogen
